import Mathlib

/-
Verification of the Whisper transcribe/translate pipeline
(whisper_transcribe_translate_processing.py and its sibling scripts).

The pipeline is embedded shallowly: the external world (timestamps taken
by datetime.now, subprocess exit codes, the directory listing seen by
os.listdir, the Whisper model and its cache) is an explicit environment
record, and every externally visible action of a run (subprocess calls,
model load, inference, file writes) is recorded in an event trace.
-/

set_option autoImplicit false

namespace Whisper

/-- Characters of the final path component, as in os.path.basename with
the posix separator. -/
def basenameChars (l : List Char) : List Char :=
  (l.reverse.takeWhile (fun c => c ≠ '/')).reverse

/-- Extension characters of a basename, following os.path.splitext:
the suffix from the last dot, except that a basename consisting only of
leading dots before that dot has no extension. -/
def extChars (b : List Char) : List Char :=
  if b.reverse.any (fun c => c = '.') then
    if ((b.reverse.dropWhile (fun c => c ≠ '.')).drop 1).any (fun c => c ≠ '.') then
      '.' :: (b.reverse.takeWhile (fun c => c ≠ '.')).reverse
    else []
  else []

/-- Model of os.path.splitext: split a path into root and extension. -/
def splitext (p : String) : String × String :=
  (⟨p.data.take (p.data.length - (extChars (basenameChars p.data)).length)⟩,
   ⟨p.data.drop (p.data.length - (extChars (basenameChars p.data)).length)⟩)

/-- Model of os.path.basename for posix paths. -/
def basename (p : String) : String :=
  ⟨basenameChars p.data⟩

/-- ASCII lower-casing, modelling str.lower() on the ASCII extensions
the pipeline compares. -/
def lowerStr (s : String) : String :=
  ⟨s.data.map Char.toLower⟩

/-- Substring test, modelling the Python expression `needle in hay`. -/
def strContains (hay needle : String) : Bool :=
  (List.range (hay.data.length + 1)).any
    (fun i => (hay.data.drop i).take needle.data.length == needle.data)

/-- Suffix test, modelling the Python expression `s.endswith(pat)`. -/
def strEndsWith (s pat : String) : Bool :=
  s.data.reverse.take pat.data.length == pat.data.reverse

/-- Split on a separator character, modelling the Python expression
`s.split(sep)` for a one-character separator: empty segments are kept
and the empty string yields one empty segment. -/
def splitOnChar (c : Char) : List Char → List (List Char)
  | [] => [[]]
  | x :: xs =>
    match splitOnChar c xs with
    | [] => if x = c then [[], []] else [[x]]
    | y :: ys => if x = c then [] :: y :: ys else (x :: y) :: ys

/-- String-level wrapper for splitOnChar. -/
def pySplit (s : String) (c : Char) : List String :=
  (splitOnChar c s.data).map (fun l => ⟨l⟩)

/-- The two input formats the local-file flow distinguishes. -/
inductive MediaFormat where
  | audio
  | video
  deriving DecidableEq, Repr

/-- The allow-list of known audio extensions
(known_audio_exts in process_audio). -/
def knownAudioExts : List String :=
  [".wav", ".mp3", ".flac", ".ogg", ".m4a", ".aac"]

/-- The format classifier of process_audio: the lower-cased extension of
the input path is looked up in the audio allow-list; every other
extension means the input is treated as video. -/
def classify (p : String) : MediaFormat :=
  if lowerStr (splitext p).2 ∈ knownAudioExts then MediaFormat.audio
  else MediaFormat.video

/-- The task mapping applied before the model call: the compound label
maps to the primitive translate task, everything else passes through. -/
def mapTask (task : String) : String :=
  if task = "transcribe & translate" then "translate" else task

/-- The video-id parse of process_url lines 170-171: split the stem of
the downloaded file name on underscores and take the second segment from
the end when there are at least two segments. -/
def extractVideoId (file : String) : Option String :=
  if (pySplit (splitext file).1 '_').length ≥ 2 then
    (pySplit (splitext file).1 '_').get? ((pySplit (splitext file).1 '_').length - 2)
  else none

/-- The caller-layer language defaulting of the CLI script
whisper_transcribe_translate.py line 58: an empty user input is replaced
by English, via the Python `or` idiom. -/
def cliSourceLanguage (userInput : String) : String :=
  if userInput = "" then "English" else userInput

/-- Externally visible actions of one pipeline run, in the order they
happen: subprocess invocations, model load, the cache existence check,
the inference call and the transcript write. -/
inductive Event where
  | runYtDlp (template url : String)
  | runFfmpegExtract (input output : String)
  | runFfmpegMp3 (input output : String)
  | loadModel (name : String)
  | checkCache (path : String) (present : Bool)
  | transcribe (audioFile lang task : String)
  | writeFile (path content : String)
  deriving DecidableEq, Repr

/-- The environment a run observes: the timestamps datetime.now returns,
whether each external subprocess exits with status zero, the error text
of a failing subprocess, the directory listing os.listdir sees, the
model-cache state and the text the model returns.

Modelled from the spec where the repository has no code: the Whisper
library itself is external, and per the spec the model cache file is
written by the underlying model loader as a side effect of a cache miss;
loadPopulates says whether this population happens and leaves the cache
file present after the load. -/
structure Env where
  ts1 : String
  ts2 : String
  ffmpegOk : Bool
  ffmpegErr : String
  ytdlpOk : Bool
  ytdlpErr : String
  listing : List String
  cacheExistsPre : Bool
  loadPopulates : Bool
  whisperText : String
  deriving DecidableEq, Repr

/-- The quadruple process_audio returns: output text or error message,
model status, save/failure status, and the path handed to the download
widget. -/
structure AudioResult where
  out : String
  modelStatus : String
  status : String
  fileOut : String
  deriving DecidableEq, Repr

/-- The quadruple process_url returns; the first, second and fourth
components are None on failure. -/
structure UrlResult where
  out : Option String
  modelStatus : Option String
  status : String
  fileOut : Option String
  deriving DecidableEq, Repr

/-- The shared tail of process_audio (lines 105-136): load the model,
check the cache file, map the task, run the model on the resolved audio
file, compose the timestamped output name and write the text to it. -/
def transcribeAndSave (env : Env) (model_name source_language task audio_file : String) :
    AudioResult × List Event :=
  let model_file := "models/" ++ model_name ++ ".pt"
  let cacheNow := env.cacheExistsPre || env.loadPopulates
  let model_status :=
    if cacheNow then "Model successfully loaded from: " ++ model_file
    else "Model was downloaded to: " ++ model_file
  let task2 := mapTask task
  let output_text := env.whisperText
  let base_name := (splitext (basename audio_file)).1
  let output_type := if task2 = "translate" then "translated" else "transcribed"
  let output_filename :=
    "transcribe/" ++ base_name ++ "_" ++ output_type ++ "_" ++ env.ts2 ++ ".txt"
  (AudioResult.mk output_text model_status ("Output saved to " ++ output_filename)
      output_filename,
    [Event.loadModel model_name, Event.checkCache model_file cacheNow,
     Event.transcribe audio_file source_language task2,
     Event.writeFile output_filename output_text])

/-- The local-file flow (process_audio, lines 58-136): classify the
input by extension, extract audio with ffmpeg when it is video, then
run the shared transcription tail; a non-zero ffmpeg exit returns the
extraction-failure quadruple at once. -/
def process_audio (env : Env) (input_file model_name source_language task : String) :
    AudioResult × List Event :=
  if classify input_file = MediaFormat.video then
    let extracted_audio := "transcribe/extracted_" ++ env.ts1 ++ ".wav"
    if env.ffmpegOk then
      let k := transcribeAndSave env model_name source_language task extracted_audio
      (k.1, Event.runFfmpegExtract input_file extracted_audio :: k.2)
    else
      (AudioResult.mk ("Failed to extract audio: " ++ env.ffmpegErr) ""
          "Audio extraction failed." "",
        [Event.runFfmpegExtract input_file extracted_audio])
  else
    transcribeAndSave env model_name source_language task input_file

/-- The shared tail of process_url (lines 184-218): load the model,
check the cache file, map the task, run the model on the extracted mp3
and write the transcript; the output name carries the parsed video id
as a suffix when that id is a non-empty string. -/
def urlTranscribeAndSave (env : Env) (model_name source_language task audio_filename : String)
    (video_id : Option String) : UrlResult × List Event :=
  let model_file := "models/" ++ model_name ++ ".pt"
  let cacheNow := env.cacheExistsPre || env.loadPopulates
  let model_status :=
    if cacheNow then "Model successfully loaded from: " ++ model_file
    else "Model was downloaded to: " ++ model_file
  let task2 := mapTask task
  let output_text := env.whisperText
  let base_name := (splitext (basename audio_filename)).1
  let output_type := if task2 = "translate" then "translated" else "transcribed"
  let idStr := video_id.getD ""
  let output_filename :=
    if idStr ≠ "" then
      "transcribe/" ++ base_name ++ "_" ++ output_type ++ "_" ++ env.ts2 ++ "_" ++
        idStr ++ ".txt"
    else
      "transcribe/" ++ base_name ++ "_" ++ output_type ++ "_" ++ env.ts2 ++ ".txt"
  (UrlResult.mk (some output_text) (some model_status)
      ("Output saved to " ++ output_filename) (some output_filename),
    [Event.loadModel model_name, Event.checkCache model_file cacheNow,
     Event.transcribe audio_filename source_language task2,
     Event.writeFile output_filename output_text])

/-- The yt-dlp output template of process_url line 158, with the run
timestamp interpolated. -/
def dlTemplate (env : Env) : String :=
  "transcribe/%(title)s_%(id)s_" ++ env.ts1 ++ ".%(ext)s"

/-- The part of process_url after a successful download, applied to the
result of the directory scan: with no matching file the run stops with
the no-video-found quadruple; with a match it parses the video id,
remuxes with ffmpeg to a timestamped mp3 and runs the shared tail. -/
def urlAfterDownload (env : Env) (video_url model_name source_language task : String) :
    Option String → UrlResult × List Event
  | none =>
      (UrlResult.mk none none "No video file found after download." none,
        [Event.runYtDlp (dlTemplate env) video_url])
  | some file =>
      let video_filename := "transcribe/" ++ file
      let video_id := extractVideoId file
      let audio_filename := (splitext video_filename).1 ++ "_" ++ env.ts1 ++ ".mp3"
      if env.ffmpegOk then
        let k := urlTranscribeAndSave env model_name source_language task
          audio_filename video_id
        (k.1, Event.runYtDlp (dlTemplate env) video_url ::
          Event.runFfmpegMp3 video_filename audio_filename :: k.2)
      else
        (UrlResult.mk none none
            ("Error during video or audio processing: " ++ env.ffmpegErr) none,
          [Event.runYtDlp (dlTemplate env) video_url,
           Event.runFfmpegMp3 video_filename audio_filename])

/-- The URL flow (process_url, lines 139-218): run yt-dlp with the
timestamped output template, scan the listing for the first file ending
in .mp4 whose name contains the run timestamp, and continue with
urlAfterDownload; a non-zero yt-dlp exit returns the shared failure
quadruple at once. -/
def process_url (env : Env) (video_url model_name source_language task : String) :
    UrlResult × List Event :=
  if env.ytdlpOk then
    urlAfterDownload env video_url model_name source_language task
      (env.listing.find? (fun f => strEndsWith f ".mp4" && strContains f env.ts1))
  else
    (UrlResult.mk none none
        ("Error during video or audio processing: " ++ env.ytdlpErr) none,
      [Event.runYtDlp (dlTemplate env) video_url])

/-- Event classifiers used to state that a failed run never reaches a
later stage. -/
def isLoadEvent : Event → Bool
  | Event.loadModel _ => true
  | _ => false

def isTranscribeEvent : Event → Bool
  | Event.transcribe _ _ _ => true
  | _ => false

def isWriteEvent : Event → Bool
  | Event.writeFile _ _ => true
  | _ => false

def isFfmpegEvent : Event → Bool
  | Event.runFfmpegExtract _ _ => true
  | Event.runFfmpegMp3 _ _ => true
  | _ => false

/-- A write event in the local-flow tail names exactly the returned
output path and carries exactly the returned text. -/
lemma writeFile_mem_transcribeAndSave {env : Env} {m l t a p c : String}
    (h : Event.writeFile p c ∈ (transcribeAndSave env m l t a).2) :
    (transcribeAndSave env m l t a).1.out = c ∧
      (transcribeAndSave env m l t a).1.fileOut = p := by
  simp only [transcribeAndSave, List.mem_cons, List.not_mem_nil, or_false] at h
  rcases h with h | h | h | h
  · exact absurd h (by simp)
  · exact absurd h (by simp)
  · exact absurd h (by simp)
  · rw [Event.writeFile.injEq] at h
    exact ⟨h.2.symm, h.1.symm⟩

/-- A write event in the URL-flow tail names exactly the returned
output path and carries exactly the returned text. -/
lemma writeFile_mem_urlTranscribeAndSave {env : Env} {m l t a p c : String}
    {vid : Option String}
    (h : Event.writeFile p c ∈ (urlTranscribeAndSave env m l t a vid).2) :
    (urlTranscribeAndSave env m l t a vid).1.out = some c ∧
      (urlTranscribeAndSave env m l t a vid).1.fileOut = some p := by
  simp only [urlTranscribeAndSave, List.mem_cons, List.not_mem_nil, or_false] at h
  rcases h with h | h | h | h
  · exact absurd h (by simp)
  · exact absurd h (by simp)
  · exact absurd h (by simp)
  · rw [Event.writeFile.injEq] at h
    obtain ⟨h1, h2⟩ := h
    subst h1
    subst h2
    exact ⟨rfl, rfl⟩

/-- Any write event of the local-file flow matches the returned text
and output path. -/
lemma writeFile_mem_process_audio {env : Env} {f m l t p c : String}
    (h : Event.writeFile p c ∈ (process_audio env f m l t).2) :
    (process_audio env f m l t).1.out = c ∧
      (process_audio env f m l t).1.fileOut = p := by
  unfold process_audio at h ⊢
  by_cases hv : classify f = MediaFormat.video
  · simp only [hv, if_pos] at h ⊢
    by_cases hff : env.ffmpegOk
    · simp only [hff, if_pos, List.mem_cons] at h ⊢
      rcases h with h | h
      · exact absurd h (by simp)
      · exact writeFile_mem_transcribeAndSave h
    · simp only [hff, if_neg, Bool.false_eq_true, List.mem_singleton] at h
      exact absurd h (by simp)
  · simp only [hv, if_neg] at h ⊢
    exact writeFile_mem_transcribeAndSave h

/-- Any write event after a successful download matches the returned
text and output path. -/
lemma writeFile_mem_urlAfterDownload {env : Env} {u m l t p c : String}
    {found : Option String}
    (h : Event.writeFile p c ∈ (urlAfterDownload env u m l t found).2) :
    (urlAfterDownload env u m l t found).1.out = some c ∧
      (urlAfterDownload env u m l t found).1.fileOut = some p := by
  cases found with
  | none =>
      simp only [urlAfterDownload, List.mem_singleton] at h
      exact absurd h (by simp)
  | some file =>
      by_cases hff : env.ffmpegOk
      · simp only [urlAfterDownload, hff, if_pos, List.mem_cons] at h ⊢
        rcases h with h | h | h
        · exact absurd h (by simp)
        · exact absurd h (by simp)
        · exact writeFile_mem_urlTranscribeAndSave h
      · simp [urlAfterDownload, hff] at h

/-- Any write event of the URL flow matches the returned text and
output path. -/
lemma writeFile_mem_process_url {env : Env} {u m l t p c : String}
    (h : Event.writeFile p c ∈ (process_url env u m l t).2) :
    (process_url env u m l t).1.out = some c ∧
      (process_url env u m l t).1.fileOut = some p := by
  unfold process_url at h ⊢
  by_cases hyt : env.ytdlpOk
  · simp only [hyt, if_pos] at h ⊢
    exact writeFile_mem_urlAfterDownload h
  · simp only [hyt, if_neg, Bool.false_eq_true, List.mem_singleton] at h
    exact absurd h (by simp)

/-- A concrete environment of a fully successful run: both subprocesses
succeed, the listing holds one matching download, the model cache is
cold and the load populates it. -/
def envA : Env :=
  Env.mk "20250101_120000" "20250102_130000" true "boom" true "neterr"
    ["MyVideo_abc123_20250101_120000.mp4"] false true "hello world"

/-- A concrete environment whose ffmpeg invocation fails. -/
def envFfmpegFail : Env :=
  Env.mk "20250101_120000" "20250102_130000" false "boom" true "neterr"
    [] false true "hello world"

/-- A concrete environment whose yt-dlp invocation fails. -/
def envYtdlpFail : Env :=
  Env.mk "20250101_120000" "20250102_130000" true "boom" false "neterr"
    [] false true "hello world"

/-- A concrete environment where the download succeeds but produces a
webm container instead of an mp4. -/
def envNoMp4 : Env :=
  Env.mk "20250101_120000" "20250102_130000" true "boom" true "neterr"
    ["Title_abc123_20250101_120000.webm"] false true "hello world"

/-- Claim C1: in every run of process_audio or process_url, a transcript
write event carries exactly the text returned to the caller and names
exactly the returned output path, so the persisted file content equals
the returned text byte for byte, with nothing added. -/
theorem output_file_content_eq_returned_text
    (env : Env) (f m l t u p1 c1 p2 c2 : String)
    (h1 : Event.writeFile p1 c1 ∈ (process_audio env f m l t).2)
    (h2 : Event.writeFile p2 c2 ∈ (process_url env u m l t).2) :
    (process_audio env f m l t).1.out = c1 ∧
    (process_audio env f m l t).1.fileOut = p1 ∧
    (process_url env u m l t).1.out = some c2 ∧
    (process_url env u m l t).1.fileOut = some p2 :=
  ⟨(writeFile_mem_process_audio h1).1, (writeFile_mem_process_audio h1).2,
   (writeFile_mem_process_url h2).1, (writeFile_mem_process_url h2).2⟩

/-- Witness for C1 on a concrete successful audio run and URL run. -/
theorem output_file_content_eq_returned_text_witness :
    (process_audio envA "sample.mp3" "base" "English" "transcribe").1.out =
      "hello world" ∧
    (process_audio envA "sample.mp3" "base" "English" "transcribe").1.fileOut =
      "transcribe/sample_transcribed_20250102_130000.txt" ∧
    (process_url envA "https://example.com/v" "base" "English" "transcribe").1.out =
      some "hello world" ∧
    (process_url envA "https://example.com/v" "base" "English" "transcribe").1.fileOut =
      some ("transcribe/MyVideo_abc123_20250101_120000_20250101_120000" ++
        "_transcribed_20250102_130000_20250101.txt") :=
  output_file_content_eq_returned_text envA "sample.mp3" "base" "English"
    "transcribe" "https://example.com/v"
    "transcribe/sample_transcribed_20250102_130000.txt" "hello world"
    ("transcribe/MyVideo_abc123_20250101_120000_20250101_120000" ++
      "_transcribed_20250102_130000_20250101.txt") "hello world"
    (by decide) (by decide)

/-- Claim C3: the task mapping is total with exactly two cases: the
compound transcribe and translate label maps to translate, every other
string passes through unchanged; process_audio invokes the model with
exactly the mapped task. -/
theorem task_mapping_two_cases (s : String) (env : Env) (f m l t : String)
    (ha : classify f = MediaFormat.audio) :
    mapTask "transcribe & translate" = "translate" ∧
    (s ≠ "transcribe & translate" → mapTask s = s) ∧
    Event.transcribe f l (mapTask t) ∈ (process_audio env f m l t).2 := by
  refine ⟨by decide, fun h => ?_, ?_⟩
  · unfold mapTask
    rw [if_neg h]
  · have hv : ¬ (classify f = MediaFormat.video) := by
      rw [ha]
      decide
    unfold process_audio
    rw [if_neg hv]
    simp [transcribeAndSave]

/-- Witness for C3 at a concrete audio input with the compound task. -/
theorem task_mapping_two_cases_witness :
    mapTask "transcribe & translate" = "translate" ∧
    mapTask "transcribe" = "transcribe" ∧
    Event.transcribe "sample.mp3" "English" "translate" ∈
      (process_audio envA "sample.mp3" "base" "English"
        "transcribe & translate").2 := by
  have h := task_mapping_two_cases "transcribe" envA "sample.mp3" "base"
    "English" "transcribe & translate" (by decide)
  exact ⟨h.1, h.2.1 (by decide), h.2.2⟩

/-- Claim C4: when the input is classified as video and ffmpeg exits
with a non-zero status, process_audio returns the extraction-failure
quadruple, its whole trace is the single ffmpeg invocation, and no
model load, no inference and no file write ever happens. -/
theorem ffmpeg_failure_aborts (env : Env) (f m l t : String)
    (hv : classify f = MediaFormat.video) (hff : env.ffmpegOk = false) :
    (process_audio env f m l t).1 =
      AudioResult.mk ("Failed to extract audio: " ++ env.ffmpegErr) ""
        "Audio extraction failed." "" ∧
    (process_audio env f m l t).2 =
      [Event.runFfmpegExtract f ("transcribe/extracted_" ++ env.ts1 ++ ".wav")] ∧
    (process_audio env f m l t).2.all
      (fun e => !(isLoadEvent e || isTranscribeEvent e || isWriteEvent e)) = true := by
  unfold process_audio
  rw [if_pos hv]
  simp [hff, isLoadEvent, isTranscribeEvent, isWriteEvent]

/-- Witness for C4 at a concrete video input with failing ffmpeg. -/
theorem ffmpeg_failure_aborts_witness :
    (process_audio envFfmpegFail "clip.mov" "base" "English" "transcribe").1 =
      AudioResult.mk "Failed to extract audio: boom" ""
        "Audio extraction failed." "" ∧
    (process_audio envFfmpegFail "clip.mov" "base" "English" "transcribe").2 =
      [Event.runFfmpegExtract "clip.mov"
        "transcribe/extracted_20250101_120000.wav"] ∧
    (process_audio envFfmpegFail "clip.mov" "base" "English" "transcribe").2.all
      (fun e => !(isLoadEvent e || isTranscribeEvent e || isWriteEvent e)) = true :=
  ffmpeg_failure_aborts envFfmpegFail "clip.mov" "base" "English" "transcribe"
    (by decide) (by decide)

/-- Claim C5: when yt-dlp exits with a non-zero status, process_url
returns the failure quadruple, its whole trace is the single yt-dlp
invocation, and ffmpeg is never run, the model never loaded and
inference never invoked. -/
theorem ytdlp_failure_aborts (env : Env) (u m l t : String)
    (h : env.ytdlpOk = false) :
    (process_url env u m l t).1 =
      UrlResult.mk none none
        ("Error during video or audio processing: " ++ env.ytdlpErr) none ∧
    (process_url env u m l t).2 = [Event.runYtDlp (dlTemplate env) u] ∧
    (process_url env u m l t).2.all
      (fun e => !(isFfmpegEvent e || isLoadEvent e || isTranscribeEvent e)) = true := by
  unfold process_url
  simp [h, dlTemplate, isFfmpegEvent, isLoadEvent, isTranscribeEvent]

/-- Witness for C5 at a concrete URL with failing yt-dlp. -/
theorem ytdlp_failure_aborts_witness :
    (process_url envYtdlpFail "https://example.com/v" "base" "English"
      "transcribe").1 =
      UrlResult.mk none none
        "Error during video or audio processing: neterr" none ∧
    (process_url envYtdlpFail "https://example.com/v" "base" "English"
      "transcribe").2 =
      [Event.runYtDlp
        "transcribe/%(title)s_%(id)s_20250101_120000.%(ext)s"
        "https://example.com/v"] ∧
    (process_url envYtdlpFail "https://example.com/v" "base" "English"
      "transcribe").2.all
      (fun e => !(isFfmpegEvent e || isLoadEvent e || isTranscribeEvent e)) = true :=
  ytdlp_failure_aborts envYtdlpFail "https://example.com/v" "base" "English"
    "transcribe" (by decide)

/-- Claim C2: classify returns audio exactly when the lower-cased
extension of the path is one of the six allow-listed audio extensions,
a path with an empty extension is video, and every video-classified
path makes process_audio start with the ffmpeg extraction call. -/
theorem classify_audio_allowlist (p : String) :
    (classify p = MediaFormat.audio ↔
      ∃ e ∈ ["wav", "mp3", "flac", "ogg", "m4a", "aac"],
        lowerStr (splitext p).2 = "." ++ e) ∧
    ((splitext p).2 = "" → classify p = MediaFormat.video) ∧
    (∀ env m l t, classify p = MediaFormat.video →
      (process_audio env p m l t).2.head? =
        some (Event.runFfmpegExtract p
          ("transcribe/extracted_" ++ env.ts1 ++ ".wav"))) := by
  refine ⟨⟨fun h => ?_, fun h => ?_⟩, fun h => ?_, fun env m l t hv => ?_⟩
  · unfold classify at h
    by_cases hm : lowerStr (splitext p).2 ∈ knownAudioExts
    · simp only [knownAudioExts, List.mem_cons, List.not_mem_nil, or_false] at hm
      rcases hm with hm | hm | hm | hm | hm | hm
      · exact ⟨"wav", by decide, by rw [hm]; decide⟩
      · exact ⟨"mp3", by decide, by rw [hm]; decide⟩
      · exact ⟨"flac", by decide, by rw [hm]; decide⟩
      · exact ⟨"ogg", by decide, by rw [hm]; decide⟩
      · exact ⟨"m4a", by decide, by rw [hm]; decide⟩
      · exact ⟨"aac", by decide, by rw [hm]; decide⟩
    · rw [if_neg hm] at h
      exact absurd h (by decide)
  · obtain ⟨e, he, hx⟩ := h
    have hm : lowerStr (splitext p).2 ∈ knownAudioExts := by
      simp only [List.mem_cons, List.not_mem_nil, or_false] at he
      rcases he with he | he | he | he | he | he <;> subst he <;> rw [hx] <;> decide
    unfold classify
    rw [if_pos hm]
  · unfold classify
    rw [h]
    decide
  · unfold process_audio
    rw [if_pos hv]
    by_cases hff : env.ffmpegOk <;> simp [hff]

/-- Witness for C2 at an upper-case audio extension and at a path with
no extension. -/
theorem classify_audio_allowlist_witness :
    classify "dir/X.WAV" = MediaFormat.audio ∧
    classify "noext" = MediaFormat.video ∧
    (process_audio envA "noext" "base" "English" "transcribe").2.head? =
      some (Event.runFfmpegExtract "noext"
        "transcribe/extracted_20250101_120000.wav") := by
  refine ⟨(classify_audio_allowlist "dir/X.WAV").1.mpr ⟨"wav", by decide, by decide⟩,
    (classify_audio_allowlist "noext").2.1 (by decide), ?_⟩
  have h := (classify_audio_allowlist "noext").2.2 envA "base" "English" "transcribe"
    ((classify_audio_allowlist "noext").2.1 (by decide))
  exact h

/-- Claim C10: after a successful download, if no file of the listing
both ends in .mp4 and contains the run timestamp, process_url returns
the no-video-found quadruple, its whole trace is the yt-dlp call, and
neither ffmpeg nor the model is ever invoked. -/
theorem scan_requires_mp4_with_timestamp (env : Env) (u m l t : String)
    (hyt : env.ytdlpOk = true)
    (hall : env.listing.all
      (fun f => !(strEndsWith f ".mp4" && strContains f env.ts1)) = true) :
    (process_url env u m l t).1 =
      UrlResult.mk none none "No video file found after download." none ∧
    (process_url env u m l t).2 = [Event.runYtDlp (dlTemplate env) u] ∧
    (process_url env u m l t).2.all
      (fun e => !(isFfmpegEvent e || isLoadEvent e || isTranscribeEvent e)) = true := by
  have hfind : env.listing.find?
      (fun f => strEndsWith f ".mp4" && strContains f env.ts1) = none := by
    rw [List.find?_eq_none]
    intro x hx
    have hx2 := List.all_eq_true.mp hall x hx
    simp only [Bool.not_eq_eq_eq_not, Bool.not_true] at hx2
    simp [hx2]
  unfold process_url
  simp [hyt, hfind, urlAfterDownload, dlTemplate, isFfmpegEvent, isLoadEvent,
    isTranscribeEvent]

/-- Witness for C10: the downloader leaves a webm container, so the scan
finds nothing. -/
theorem scan_requires_mp4_with_timestamp_witness :
    (process_url envNoMp4 "https://example.com/v" "base" "English"
      "transcribe").1 =
      UrlResult.mk none none "No video file found after download." none ∧
    (process_url envNoMp4 "https://example.com/v" "base" "English"
      "transcribe").2 =
      [Event.runYtDlp
        "transcribe/%(title)s_%(id)s_20250101_120000.%(ext)s"
        "https://example.com/v"] ∧
    (process_url envNoMp4 "https://example.com/v" "base" "English"
      "transcribe").2.all
      (fun e => !(isFfmpegEvent e || isLoadEvent e || isTranscribeEvent e)) = true :=
  scan_requires_mp4_with_timestamp envNoMp4 "https://example.com/v" "base"
    "English" "transcribe" (by decide) (by decide)

lemma takeWhile_append_all {α : Type} (p : α → Bool) (l1 l2 : List α)
    (h : l1.all p = true) :
    (l1 ++ l2).takeWhile p = l1 ++ l2.takeWhile p := by
  induction l1 with
  | nil => simp
  | cons x xs ih =>
      simp only [List.all_cons, Bool.and_eq_true] at h
      simp [List.takeWhile_cons, h.1, ih h.2]

/-- The basename of a path whose final component is
extracted_<seg>.wav with a slash-free segment. -/
lemma basenameChars_extracted (T : List Char)
    (h : T.all (fun c => c ≠ '/') = true) :
    basenameChars (("transcribe/extracted_".data ++ T) ++ ".wav".data) =
      ("extracted_".data ++ T) ++ ".wav".data := by
  unfold basenameChars
  rw [List.reverse_append, List.reverse_append]
  rw [takeWhile_append_all _ _ _ (by decide)]
  rw [takeWhile_append_all _ _ _ (by rw [List.all_reverse]; exact h)]
  rw [show ("transcribe/extracted_".data.reverse).takeWhile (fun c => c ≠ '/')
      = "extracted_".data.reverse from by decide]
  simp [List.reverse_append, List.reverse_reverse, List.append_assoc]

/-- A list of characters without a slash is its own basename. -/
lemma basenameChars_no_slash (l : List Char)
    (h : l.all (fun c => c ≠ '/') = true) :
    basenameChars l = l := by
  unfold basenameChars
  have h2 := takeWhile_append_all (fun c => c ≠ '/') l.reverse []
    (by rw [List.all_reverse]; exact h)
  rw [List.append_nil] at h2
  rw [h2]
  simp

/-- The extension of extracted_<seg>.wav is .wav, whatever the segment
holds: the last dot is the one of .wav and the prefix has non-dot
characters. -/
lemma extChars_extracted_wav (T : List Char) :
    extChars (("extracted_".data ++ T) ++ ".wav".data) = ".wav".data := by
  unfold extChars
  rw [show ((("extracted_".data ++ T) ++ ".wav".data)).reverse
      = ['v', 'a', 'w', '.'] ++ (T.reverse ++ "extracted_".data.reverse) from by
    rw [List.reverse_append, List.reverse_append,
      show (".wav".data).reverse = ['v', 'a', 'w', '.'] from by decide]]
  have h1 : (['v', 'a', 'w', '.'] ++ (T.reverse ++ "extracted_".data.reverse)).any
      (fun c => c = '.') = true := by simp
  have h2 : (['v', 'a', 'w', '.'] ++ (T.reverse ++ "extracted_".data.reverse)).dropWhile
      (fun c => c ≠ '.') = '.' :: (T.reverse ++ "extracted_".data.reverse) := by simp
  have h3 : (['v', 'a', 'w', '.'] ++ (T.reverse ++ "extracted_".data.reverse)).takeWhile
      (fun c => c ≠ '.') = ['v', 'a', 'w'] := by simp
  rw [h1, h2, h3]
  have h4 : (('.' :: (T.reverse ++ "extracted_".data.reverse)).drop 1).any
      (fun c => c ≠ '.') = true := by
    simp only [List.drop_succ_cons, List.drop_zero]
    rw [List.any_append,
      show ("extracted_".data.reverse).any (fun c => c ≠ '.') = true from by decide,
      Bool.or_true]
  rw [h4]
  decide

/-- The stem that process_audio derives for an extracted audio file:
splitext of the basename of transcribe/extracted_<ts>.wav is
extracted_<ts>, for any slash-free timestamp string. -/
lemma base_name_extracted (ts : String)
    (h : ts.data.all (fun c => c ≠ '/') = true) :
    (splitext (basename ("transcribe/extracted_" ++ ts ++ ".wav"))).1 =
      "extracted_" ++ ts := by
  have hb : basename ("transcribe/extracted_" ++ ts ++ ".wav")
      = ⟨("extracted_".data ++ ts.data) ++ ".wav".data⟩ := by
    unfold basename
    rw [String.data_append, String.data_append]
    exact congrArg String.mk (basenameChars_extracted ts.data h)
  rw [hb]
  unfold splitext
  have hall : (("extracted_".data ++ ts.data) ++ ".wav".data).all
      (fun c => c ≠ '/') = true := by
    rw [List.all_append, List.all_append]
    rw [h, show ("extracted_".data).all (fun c => c ≠ '/') = true from by decide,
      show (".wav".data).all (fun c => c ≠ '/') = true from by decide]
    rfl
  rw [show ((⟨("extracted_".data ++ ts.data) ++ ".wav".data⟩ : String)).data
      = ("extracted_".data ++ ts.data) ++ ".wav".data from rfl]
  rw [basenameChars_no_slash _ hall, extChars_extracted_wav]
  have hlen : ((("extracted_".data ++ ts.data) ++ ".wav".data).length
      - (".wav".data).length) = ("extracted_".data ++ ts.data).length := by
    simp only [List.length_append]
    rw [show (".wav".data).length = 4 from by decide]
    omega
  rw [hlen, List.take_left]
  exact congrArg String.mk (String.data_append "extracted_" ts).symm

/-- Two model-status strings with the same path differ: their lengths
differ by the literal heads. -/
lemma loaded_ne_downloaded (x : String) :
    "Model successfully loaded from: " ++ x ≠ "Model was downloaded to: " ++ x := by
  intro h
  have hl := congrArg String.length h
  rw [String.length_append, String.length_append,
    show ("Model successfully loaded from: ").length = 32 from by decide,
    show ("Model was downloaded to: ").length = 25 from by decide] at hl
  omega

/-- Counterexample to claim C6: with a cold cache whose load populates
the cache file, the run reports the model as loaded from the cache file,
not as downloaded, and the trace shows the cache check happening after
the model load, not before it. -/
theorem provenance_check_after_load_cex :
    envA.cacheExistsPre = false ∧
    (process_audio envA "sample.mp3" "base" "English" "transcribe").1.modelStatus =
      "Model successfully loaded from: models/base.pt" ∧
    (process_audio envA "sample.mp3" "base" "English" "transcribe").1.modelStatus ≠
      "Model was downloaded to: models/base.pt" ∧
    (process_audio envA "sample.mp3" "base" "English" "transcribe").2.take 2 =
      [Event.loadModel "base", Event.checkCache "models/base.pt" true] := by
  decide

/-- Claim C6 (amended): the reported model provenance is determined by
an existence check of the cache path performed after the model load, so
the run reports the model as downloaded exactly when the cache file is
still absent after the load; a cold-cache run whose load populates the
cache reports the model as loaded from the cache file. -/
theorem provenance_postload_check (env : Env) (f m l t : String)
    (ha : classify f = MediaFormat.audio) :
    (process_audio env f m l t).2.take 2 =
      [Event.loadModel m,
       Event.checkCache ("models/" ++ m ++ ".pt")
         (env.cacheExistsPre || env.loadPopulates)] ∧
    ((process_audio env f m l t).1.modelStatus =
        "Model was downloaded to: " ++ ("models/" ++ m ++ ".pt") ↔
      (env.cacheExistsPre || env.loadPopulates) = false) := by
  have hv : ¬ (classify f = MediaFormat.video) := by
    rw [ha]
    decide
  unfold process_audio
  rw [if_neg hv]
  constructor
  · simp [transcribeAndSave]
  · cases hc : env.cacheExistsPre || env.loadPopulates with
    | true =>
        simp only [transcribeAndSave, hc, if_true]
        constructor
        · intro h
          exact absurd h (loaded_ne_downloaded ("models/" ++ m ++ ".pt"))
        · intro h
          cases h
    | false =>
        simp [transcribeAndSave, hc]

/-- Witness for the amended C6 on a concrete cold-cache run whose load
populates the cache. -/
theorem provenance_postload_check_witness :
    (process_audio envA "sample.mp3" "base" "English" "transcribe").2.take 2 =
      [Event.loadModel "base", Event.checkCache "models/base.pt" true] ∧
    ((process_audio envA "sample.mp3" "base" "English" "transcribe").1.modelStatus =
        "Model was downloaded to: " ++ "models/base.pt" ↔ (true = false)) :=
  provenance_postload_check envA "sample.mp3" "base" "English" "transcribe"
    (by decide)

/-- Counterexample to claim C7: for the local video clip.mov with the
compound task, the persisted output name is derived from the extracted
audio file extracted_<ts>.wav, so it starts transcribe/extracted_ and is
not clip_translated_<timestamp>.txt for any timestamp. -/
theorem clip_mov_output_name_cex :
    classify "clip.mov" = MediaFormat.video ∧
    (process_audio envA "clip.mov" "base" "English"
      "transcribe & translate").1.fileOut =
      "transcribe/extracted_20250101_120000_translated_20250102_130000.txt" ∧
    (¬ ∃ ts : String,
      (process_audio envA "clip.mov" "base" "English"
        "transcribe & translate").1.fileOut =
        "transcribe/clip_translated_" ++ ts ++ ".txt") := by
  refine ⟨by decide, by decide, ?_⟩
  rintro ⟨ts, h⟩
  rw [show (process_audio envA "clip.mov" "base" "English"
      "transcribe & translate").1.fileOut =
      "transcribe/extracted_20250101_120000_translated_20250102_130000.txt"
    from by decide] at h
  have hd := congrArg String.data h
  rw [String.data_append, String.data_append] at hd
  have ht := congrArg (List.take 12) hd
  have hlen : 12 ≤ ("transcribe/clip_translated_".data ++ ts.data).length := by
    rw [List.length_append,
      show ("transcribe/clip_translated_".data).length = 27 from by decide]
    omega
  rw [List.take_append_of_le_length hlen,
    List.take_append_of_le_length (by decide)] at ht
  exact absurd ht (by decide)

/-- Claim C7 (amended): for local input clip.mov with the compound task,
the classifier returns video, ffmpeg extraction produces the wav file
transcribe/extracted_<ts1>.wav, the model is invoked on that file with
the translate task, and the persisted output name is derived from the
extracted audio file's base name: extracted_<ts1>_translated_<ts2>.txt
under the output folder. -/
theorem clip_mov_scenario_amended (env : Env) (m l : String)
    (hff : env.ffmpegOk = true)
    (hts : env.ts1.data.all (fun c => c ≠ '/') = true) :
    classify "clip.mov" = MediaFormat.video ∧
    (process_audio env "clip.mov" m l "transcribe & translate").2 =
      [Event.runFfmpegExtract "clip.mov"
         ("transcribe/extracted_" ++ env.ts1 ++ ".wav"),
       Event.loadModel m,
       Event.checkCache ("models/" ++ m ++ ".pt")
         (env.cacheExistsPre || env.loadPopulates),
       Event.transcribe ("transcribe/extracted_" ++ env.ts1 ++ ".wav") l
         "translate",
       Event.writeFile
         ("transcribe/" ++ ("extracted_" ++ env.ts1) ++ "_" ++ "translated" ++
           "_" ++ env.ts2 ++ ".txt")
         env.whisperText] ∧
    (process_audio env "clip.mov" m l "transcribe & translate").1.fileOut =
      "transcribe/" ++ ("extracted_" ++ env.ts1) ++ "_" ++ "translated" ++
        "_" ++ env.ts2 ++ ".txt" := by
  have hv : classify "clip.mov" = MediaFormat.video := by decide
  refine ⟨hv, ?_, ?_⟩ <;>
  · unfold process_audio
    rw [if_pos hv, if_pos hff]
    simp only [transcribeAndSave]
    rw [base_name_extracted env.ts1 hts]
    rw [show mapTask "transcribe & translate" = "translate" from by decide]
    rw [show (if ("translate" : String) = "translate" then "translated"
        else "transcribed") = "translated" from by decide]

/-- Witness for the amended C7 with concrete timestamps. -/
theorem clip_mov_scenario_amended_witness :
    classify "clip.mov" = MediaFormat.video ∧
    (process_audio envA "clip.mov" "base" "English"
      "transcribe & translate").2 =
      [Event.runFfmpegExtract "clip.mov"
         "transcribe/extracted_20250101_120000.wav",
       Event.loadModel "base",
       Event.checkCache "models/base.pt" true,
       Event.transcribe "transcribe/extracted_20250101_120000.wav" "English"
         "translate",
       Event.writeFile
         "transcribe/extracted_20250101_120000_translated_20250102_130000.txt"
         "hello world"] ∧
    (process_audio envA "clip.mov" "base" "English"
      "transcribe & translate").1.fileOut =
      "transcribe/extracted_20250101_120000_translated_20250102_130000.txt" := by
  have h := clip_mov_scenario_amended envA "base" "English" (by decide) (by decide)
  exact ⟨h.1, by rw [h.2.1]; decide, by rw [h.2.2]; decide⟩

/-- Claim C8: with the downloader filename template
title_id_timestamp.mp4 and a run timestamp of the form YYYYMMDD_HHMMSS,
the positional underscore parse of process_url picks the date half of
the timestamp, not the platform video id, and that wrongly parsed
segment lands in the output name as the id suffix. -/
theorem video_id_is_timestamp_segment :
    extractVideoId "MyVideo_abc123_20250101_120000.mp4" = some "20250101" ∧
    extractVideoId "MyVideo_abc123_20250101_120000.mp4" ≠ some "abc123" ∧
    (process_url envA "https://example.com/v" "base" "English"
      "transcribe").1.fileOut =
      some ("transcribe/MyVideo_abc123_20250101_120000_20250101_120000" ++
        "_transcribed_20250102_130000_20250101.txt") := by
  decide

/-- Counterexample to claim C9: a pipeline invocation with an empty
language hint reaches the model with the empty language, not with
English. -/
theorem empty_language_reaches_model_cex :
    Event.transcribe "sample.mp3" "" "transcribe" ∈
      (process_audio envA "sample.mp3" "base" "" "transcribe").2 ∧
    ("" : String) ≠ "English" := by
  decide

/-- Claim C9 (amended): the empty-language default to English lives only
in the CLI caller, which replaces an empty input by English before
calling the engine; the Gradio pipeline functions pass the language hint
to the model unchanged, so a pipeline invocation with an empty language
hint calls the model with the empty language. -/
theorem language_default_cli_only (s : String) (env : Env) (f m l t : String)
    (hs : s ≠ "") (ha : classify f = MediaFormat.audio) :
    cliSourceLanguage "" = "English" ∧
    cliSourceLanguage s = s ∧
    Event.transcribe f l (mapTask t) ∈ (process_audio env f m l t).2 := by
  refine ⟨by decide, ?_, ?_⟩
  · unfold cliSourceLanguage
    rw [if_neg hs]
  · have hv : ¬ (classify f = MediaFormat.video) := by
      rw [ha]
      decide
    unfold process_audio
    rw [if_neg hv]
    simp [transcribeAndSave]

/-- Witness for the amended C9: the CLI default fires on the empty
input, and a concrete empty-language pipeline run calls the model with
the empty language. -/
theorem language_default_cli_only_witness :
    cliSourceLanguage "" = "English" ∧
    cliSourceLanguage "German" = "German" ∧
    Event.transcribe "sample.mp3" "" "transcribe" ∈
      (process_audio envA "sample.mp3" "base" "" "transcribe").2 := by
  have h := language_default_cli_only "German" envA "sample.mp3" "base" ""
    "transcribe" (by decide) (by decide)
  exact h

end Whisper
